import Mathlib

/-!
Shallow embedding of the zathura-cb plugin (src/cb.c): archive scanning,
page-index construction, path comparison, page initialisation and page
rendering, together with proofs about the embedded definitions.

External collaborators (libarchive, glib, gdk-pixbuf, girara) are modelled
explicitly:

* libarchive: an archive is the sequence of results its streaming reader
  produces — an open return code, then one header-read result per entry
  (return code plus entry), each entry carrying its data-block read results
  (return code plus bytes).  ARCHIVE_EOF is represented structurally by the
  end of the lists.
* gdk-pixbuf: images are modelled by a two-byte header — the first byte is
  the width, the second the height; the incremental loader reports the
  dimensions (the size-prepared signal) on the write that completes the
  header, and a write fails once the accumulated bytes have a header that is
  not strictly positive in both components.  The full decoder accepts
  exactly the byte strings with a strictly positive two-byte header.
* glib: g_utf8_casefold is modelled as character-wise lower-casing and
  g_utf8_collate as lexicographic comparison of code points; g_list
  sorted insertion inserts before the first element comparing ≥ the new one.
-/

set_option maxRecDepth 4000

abbrev CStr := List Char

def ARCHIVE_OK : Int := 0
def ARCHIVE_WARN : Int := -20
def ARCHIVE_FATAL : Int := -30

inductive zathura_error_t where
  | ZATHURA_ERROR_OK
  | ZATHURA_ERROR_UNKNOWN
  | ZATHURA_ERROR_OUT_OF_MEMORY
  | ZATHURA_ERROR_NOT_IMPLEMENTED
  | ZATHURA_ERROR_INVALID_ARGUMENTS
deriving DecidableEq, Repr

open zathura_error_t

inductive FileType where
  | AE_IFREG
  | AE_OTHER
deriving DecidableEq, Repr

/-- One archive_read_data_block result: the return code and the bytes of the
block (ARCHIVE_EOF is the end of the list). -/
structure Block where
  code : Int
  data : List Nat
deriving DecidableEq, Repr

/-- One archive entry as libarchive presents it: filetype, pathname and the
stream of data-block read results. -/
structure ArchiveEntry where
  filetype : FileType
  pathname : CStr
  blocks : List Block
deriving DecidableEq, Repr

/-- One archive_read_next_header result: the return code and the entry it
yields (ARCHIVE_EOF is the end of the list). -/
structure HeaderRead where
  code : Int
  entry : ArchiveEntry
deriving DecidableEq, Repr

/-- The observable behaviour of one archive file: the return code of
archive_read_open_filename and the sequence of header reads. -/
structure Archive where
  openCode : Int
  entries : List HeaderRead
deriving DecidableEq, Repr

/-- Resource events on libarchive handles, used to track that every handle
allocated by archive_read_new is closed and freed. -/
inductive REv where
  | alloc
  | close
  | free
deriving DecidableEq, Repr

def balanced (tr : List REv) : Prop :=
  tr.count REv.alloc = tr.count REv.free

instance (tr : List REv) : Decidable (balanced tr) := by
  unfold balanced; infer_instance

/-! ### Path comparison (compare_path, compare_pages) -/

/-- Modelled from the external glib g_utf8_casefold: character-wise
case-folding (lower-casing). -/
def g_utf8_casefold (s : CStr) : CStr := s.map Char.toLower

/-- Modelled from the external glib g_utf8_collate: lexicographic comparison
of code points, negative / zero / positive like strcmp. -/
def g_utf8_collate : CStr → CStr → Int
  | [], [] => 0
  | [], _ :: _ => -1
  | _ :: _, [] => 1
  | c1 :: t1, c2 :: t2 =>
    if c1.toNat < c2.toNat then -1
    else if c2.toNat < c1.toNat then 1
    else g_utf8_collate t1 t2

/-- compare_path from src/cb.c: case-fold both operands, then collate. -/
def compare_path (str1 str2 : CStr) : Int :=
  g_utf8_collate (g_utf8_casefold str1) (g_utf8_casefold str2)

/-- Image metadata record built during scanning (cb_document_page_meta_t). -/
structure PageMeta where
  file : CStr
  width : Nat
  height : Nat
deriving DecidableEq, Repr

/-- compare_pages from src/cb.c. -/
def compare_pages (page1 page2 : PageMeta) : Int :=
  compare_path page1.file page2.file

/-- Modelled from the external glib g_list_insert_sorted (used by the girara
sorted list backing the page list): walk while the new element compares
greater than the current one, insert before the first element it compares
less-or-equal to. -/
def g_list_insert_sorted (m : PageMeta) : List PageMeta → List PageMeta
  | [] => [m]
  | x :: xs =>
    if compare_pages m x ≤ 0 then m :: x :: xs
    else x :: g_list_insert_sorted m xs

/-! ### Image decoding model (gdk-pixbuf) -/

/-- Modelled from the external gdk-pixbuf: the image header is the first two
bytes, read as (width, height); fewer than two bytes means the header (and
hence the dimensions) are not yet known. -/
def headerDims : List Nat → Option (Nat × Nat)
  | b0 :: b1 :: _ => some (b0, b1)
  | _ => none

/-- Modelled from the external gdk-pixbuf incremental loader: a write
succeeds as long as the accumulated bytes do not yet exhibit an invalid
header (a known header with a zero component). -/
def gdk_pixbuf_loader_write_ok (fed : List Nat) : Bool :=
  match headerDims fed with
  | some (w, h) => decide (0 < w) && decide (0 < h)
  | none => true

/-- A decoded bitmap (GdkPixbuf) produced by the full decoder. -/
structure GdkPixbuf where
  width : Nat
  height : Nat
  bytes : List Nat
deriving DecidableEq, Repr

/-- Modelled from the external gdk_pixbuf_new_from_stream: full decode
succeeds exactly when the buffered content carries a strictly positive
two-byte header. -/
def gdk_pixbuf_new_from_stream (bs : List Nat) : Option GdkPixbuf :=
  match headerDims bs with
  | some (w, h) => if 0 < w ∧ 0 < h then some ⟨w, h, bs⟩ else none
  | none => none

/-! ### Archive scanning (read_archive) -/

/-- The data-block loop of read_archive (src/cb.c lines 194-206): skip empty
blocks, feed the block to the loader (during which the size-prepared signal
may set the metadata dimensions), stop when a write fails or a dimension
became positive.  The block return codes are not inspected, exactly as in
the source. -/
def scan_data_blocks : List Block → List Nat → Nat × Nat → Nat × Nat
  | [], _, meta => meta
  | b :: bs, fed, meta =>
    if b.data.length = 0 then scan_data_blocks bs fed meta
    else
      let fed' := fed ++ b.data
      let meta' :=
        match headerDims fed, headerDims fed' with
        | none, some wh => wh
        | _, _ => meta
      if gdk_pixbuf_loader_write_ok fed' = false then meta'
      else if 0 < meta'.1 ∨ 0 < meta'.2 then meta'
      else scan_data_blocks bs fed' meta'

/-- Dimensions accepted for one entry: the partial decode's final metadata,
kept only if both components are strictly positive (src/cb.c line 211). -/
def scan_entry_dims (blocks : List Block) : Option (Nat × Nat) :=
  let m := scan_data_blocks blocks [] (0, 0)
  if 0 < m.1 ∧ 0 < m.2 then some m else none

/-- get_extension from src/cb.c: the substring after the last dot of the
path (strrchr), none when the path has no dot. -/
def get_extension : CStr → Option CStr
  | [] => none
  | c :: rest =>
    match get_extension rest with
    | some e => some e
    | none => if c = '.' then some rest else none

/-- The extension-matching loop over the supported-extensions list
(src/cb.c lines 183-184, g_strcmp0 equality): a missing extension matches
nothing, otherwise exact case-sensitive string equality. -/
def ext_matches (ext? : Option CStr) (supported : List CStr) : Bool :=
  supported.any (fun e => ext? = some e)

/-- What the scan does with one header read (src/cb.c lines 175-218), after
the header-error check: skip non-regular files, skip non-matching
extensions, partially decode matching entries and keep those whose
dimensions resolve strictly positive. -/
def scan_header (supported : List CStr) (hr : HeaderRead) : Option PageMeta :=
  if hr.entry.filetype ≠ FileType.AE_IFREG then none
  else if ext_matches (get_extension hr.entry.pathname) supported then
    match scan_entry_dims hr.entry.blocks with
    | some (w, h) => some ⟨hr.entry.pathname, w, h⟩
    | none => none
  else none

/-- The header loop of read_archive (src/cb.c lines 167-220): abort on a
return code more severe than ARCHIVE_WARN, otherwise process the entry and
append any accepted metadata to the sorted page list. -/
def read_archive_loop (supported : List CStr) :
    List HeaderRead → List PageMeta → Option (List PageMeta)
  | [], pages => some pages
  | hr :: rest, pages =>
    if hr.code < ARCHIVE_WARN then none
    else
      match scan_header supported hr with
      | some meta => read_archive_loop supported rest (g_list_insert_sorted meta pages)
      | none => read_archive_loop supported rest pages

/-- read_archive from src/cb.c, instrumented with the archive-handle
resource events of each exit path: allocation by archive_read_new, then
free on open failure (line 162), close+free on a header error (lines
170-171) and close+free on normal completion (lines 222-223). -/
def read_archive (arch : Archive) (supported : List CStr) :
    Option (List PageMeta) × List REv :=
  if arch.openCode ≠ ARCHIVE_OK then (none, [REv.alloc, REv.free])
  else
    match read_archive_loop supported arch.entries [] with
    | none => (none, [REv.alloc, REv.close, REv.free])
    | some pages => (some pages, [REv.alloc, REv.close, REv.free])

/-! ### Entry fetching (load_pixbuf_from_archive) -/

/-- The data-block loop of load_pixbuf_from_archive (src/cb.c lines
377-399): fail on a return code more severe than ARCHIVE_WARN, skip empty
blocks, otherwise append the block to the memory stream. -/
def fetch_data_blocks : List Block → List Nat → Option (List Nat)
  | [], acc => some acc
  | b :: bs, acc =>
    if b.code < ARCHIVE_WARN then none
    else if b.data.length = 0 then fetch_data_blocks bs acc
    else fetch_data_blocks bs (acc ++ b.data)

/-- The header loop of load_pixbuf_from_archive (src/cb.c lines 354-413):
abort on a hard header error, skip entries whose path does not compare
equal to the requested file, and for the first match buffer the content and
decode it; every failure returns NULL without visiting further entries. -/
def load_pixbuf_loop (f : CStr) : List HeaderRead → Option GdkPixbuf
  | [] => none
  | hr :: rest =>
    if hr.code < ARCHIVE_WARN then none
    else if compare_path hr.entry.pathname f ≠ 0 then load_pixbuf_loop f rest
    else
      match fetch_data_blocks hr.entry.blocks [] with
      | none => none
      | some bytes => gdk_pixbuf_new_from_stream bytes

/-- load_pixbuf_from_archive from src/cb.c, instrumented with the
archive-handle resource events of each exit path.  Note the open-failure
path (lines 349-351) returns without archive_read_free, exactly as in the
source. -/
def load_pixbuf_from_archive (archive : Option Archive) (file : Option CStr) :
    Option GdkPixbuf × List REv :=
  match archive, file with
  | some a, some f =>
    if a.openCode ≠ ARCHIVE_OK then (none, [REv.alloc])
    else (load_pixbuf_loop f a.entries, [REv.alloc, REv.close, REv.free])
  | _, _ => (none, [])

/-! ### Host-facing operations -/

/-- cb_document_s: the plugin data attached to a document — the sorted page
list. -/
structure CbDocument where
  pages : List PageMeta
deriving DecidableEq, Repr

/-- The host document: the archive behind its path, the attached plugin
data and the page count set by cb_document_open. -/
structure ZathuraDocument where
  arch : Archive
  data : Option CbDocument
  number_of_pages : Nat
deriving DecidableEq, Repr

/-- The host page object as cb_page_init sees it: its document and index. -/
structure ZathuraPage where
  document : Option ZathuraDocument
  index : Nat
deriving DecidableEq, Repr

/-- cb_page_s: the plugin data attached to a page. -/
structure CbPage where
  file : CStr
deriving DecidableEq, Repr

/-- The outcome of a successful cb_page_init: the attached plugin data and
the width and height set on the page. -/
structure PageInitResult where
  cb_page : CbPage
  width : Nat
  height : Nat
deriving DecidableEq, Repr

/-- A cairo drawing context, reduced to the pixbuf last painted onto it. -/
structure Cairo where
  painted : Option GdkPixbuf
deriving DecidableEq, Repr

/-- cb_document_open from src/cb.c: NULL document is rejected; the archive
is scanned into a sorted page list; on failure the document is left without
plugin data; on success the page count and the plugin data are set. -/
def cb_document_open (document : Option ZathuraDocument) (supported : List CStr) :
    zathura_error_t × Option ZathuraDocument :=
  match document with
  | none => (ZATHURA_ERROR_INVALID_ARGUMENTS, none)
  | some d =>
    match (read_archive d.arch supported).1 with
    | none => (ZATHURA_ERROR_UNKNOWN, some d)
    | some pages =>
      (ZATHURA_ERROR_OK,
       some { d with data := some ⟨pages⟩, number_of_pages := pages.length })

/-- cb_page_init from src/cb.c: NULL page is rejected; a missing document
or missing plugin data is ZATHURA_ERROR_UNKNOWN; girara_list_nth out of
range yields NULL metadata, hence ZATHURA_ERROR_UNKNOWN; otherwise the page
data, width and height are set from the metadata. -/
def cb_page_init (page : Option ZathuraPage) : zathura_error_t × Option PageInitResult :=
  match page with
  | none => (ZATHURA_ERROR_INVALID_ARGUMENTS, none)
  | some p =>
    match p.document with
    | none => (ZATHURA_ERROR_UNKNOWN, none)
    | some doc =>
      match doc.data with
      | none => (ZATHURA_ERROR_UNKNOWN, none)
      | some cb_document =>
        match cb_document.pages.get? p.index with
        | none => (ZATHURA_ERROR_UNKNOWN, none)
        | some meta => (ZATHURA_ERROR_OK, some ⟨⟨meta.file⟩, meta.width, meta.height⟩)

/-- cb_page_render_cairo from src/cb.c: NULL page, page data or cairo
context is rejected; a missing document is ZATHURA_ERROR_UNKNOWN; a NULL
pixbuf from the fetcher is ZATHURA_ERROR_UNKNOWN; otherwise the pixbuf is
painted onto the context. -/
def cb_page_render_cairo (page : Option ZathuraPage) (cb_page : Option CbPage)
    (cairo : Option Cairo) (printing : Bool) : zathura_error_t × Option Cairo :=
  match page, cb_page, cairo with
  | some p, some cp, some c =>
    match p.document with
    | none => (ZATHURA_ERROR_UNKNOWN, some c)
    | some doc =>
      match (load_pixbuf_from_archive (some doc.arch) (some cp.file)).1 with
      | none => (ZATHURA_ERROR_UNKNOWN, some c)
      | some pixbuf => (ZATHURA_ERROR_OK, some { c with painted := some pixbuf })
  | _, _, _ => (ZATHURA_ERROR_INVALID_ARGUMENTS, cairo)

/-- The pages the scan accepts, in archive order. -/
def accepted_pages (supported : List CStr) (hrs : List HeaderRead) : List PageMeta :=
  hrs.filterMap (scan_header supported)

/-- The ordering relation the sorted page list maintains. -/
def page_le (m1 m2 : PageMeta) : Prop := compare_pages m1 m2 ≤ 0

instance : DecidableRel page_le := by
  unfold page_le; infer_instance

/-- A tie for the comparator: two metadata records whose paths compare
equal. -/
def page_tie (m1 m2 : PageMeta) : Prop := compare_pages m1 m2 = 0

instance (m1 m2 : PageMeta) : Decidable (page_tie m1 m2) := by
  unfold page_tie; infer_instance

/-! ### Concrete fixtures used by the scenario theorems -/

/-- Registry containing exactly the png extension. -/
def registry_png : List CStr := ["png".toList]

/-- Registry containing the png and jpg extensions (the C1 scenario). -/
def registry_png_jpg : List CStr := ["png".toList, "jpg".toList]

/-- A valid 50 by 50 png entry named b.png. -/
def entry_b_png : HeaderRead :=
  ⟨ARCHIVE_OK, ⟨FileType.AE_IFREG, "b.png".toList, [⟨ARCHIVE_OK, [50, 50, 1, 2, 3]⟩]⟩⟩

/-- An entry named a.txt whose content is not an image. -/
def entry_a_txt : HeaderRead :=
  ⟨ARCHIVE_OK, ⟨FileType.AE_IFREG, "a.txt".toList, [⟨ARCHIVE_OK, [0]⟩]⟩⟩

/-- A valid 30 by 30 png entry named a.png. -/
def entry_a_png : HeaderRead :=
  ⟨ARCHIVE_OK, ⟨FileType.AE_IFREG, "a.png".toList, [⟨ARCHIVE_OK, [30, 30, 7]⟩]⟩⟩

/-- A valid 10 by 10 png entry named A.png (upper case), tying with a.png
under the case-insensitive comparator. -/
def entry_upperA_png : HeaderRead :=
  ⟨ARCHIVE_OK, ⟨FileType.AE_IFREG, "A.png".toList, [⟨ARCHIVE_OK, [10, 10]⟩]⟩⟩

/-- A valid 20 by 20 png entry named a.png. -/
def entry_lowerA_png : HeaderRead :=
  ⟨ARCHIVE_OK, ⟨FileType.AE_IFREG, "a.png".toList, [⟨ARCHIVE_OK, [20, 20]⟩]⟩⟩

/-- A png entry whose single data block holds a fatal read code along with
image bytes: the scan loop never inspects the code. -/
def entry_block_error_png : HeaderRead :=
  ⟨ARCHIVE_OK, ⟨FileType.AE_IFREG, "e.png".toList, [⟨ARCHIVE_FATAL, [7, 9]⟩]⟩⟩

/-- A png entry whose bytes are not a valid image (truncated header). -/
def corrupt_png_entry : HeaderRead :=
  ⟨ARCHIVE_OK, ⟨FileType.AE_IFREG, "corrupt.png".toList, [⟨ARCHIVE_OK, [0]⟩]⟩⟩

/-- An entry named p.png whose content the full decoder rejects (zero
width). -/
def entry_decode_fail : HeaderRead :=
  ⟨ARCHIVE_OK, ⟨FileType.AE_IFREG, "p.png".toList, [⟨ARCHIVE_OK, [0, 5]⟩]⟩⟩

/-! ### Properties of the collation and the comparator -/

theorem g_utf8_collate_antisymm_sign :
    ∀ a b : CStr, g_utf8_collate a b = -(g_utf8_collate b a) := by
  intro a
  induction a with
  | nil => intro b; cases b <;> simp [g_utf8_collate]
  | cons c1 t1 ih =>
    intro b
    cases b with
    | nil => simp [g_utf8_collate]
    | cons c2 t2 =>
      simp only [g_utf8_collate]
      split_ifs with h1 h2 h3 h4 h5 h6 <;> first | omega | exact ih t2

theorem g_utf8_collate_refl (a : CStr) : g_utf8_collate a a = 0 := by
  have h := g_utf8_collate_antisymm_sign a a
  omega

theorem g_utf8_collate_trans :
    ∀ a b c : CStr, g_utf8_collate a b ≤ 0 → g_utf8_collate b c ≤ 0 →
      g_utf8_collate a c ≤ 0 := by
  intro a
  induction a with
  | nil => intro b c _ _; cases c <;> simp [g_utf8_collate]
  | cons x xs ih =>
    intro b c hab hbc
    cases b with
    | nil => simp [g_utf8_collate] at hab
    | cons y ys =>
      cases c with
      | nil => simp [g_utf8_collate] at hbc
      | cons z zs =>
        simp only [g_utf8_collate] at hab hbc ⊢
        split_ifs at hab hbc ⊢ <;> first | omega | (exact ih ys zs hab hbc)

theorem compare_path_eq_collate_casefold (a b : CStr) :
    compare_path a b = g_utf8_collate (g_utf8_casefold a) (g_utf8_casefold b) := rfl

theorem compare_path_refl (a : CStr) : compare_path a a = 0 :=
  g_utf8_collate_refl _

theorem compare_path_antisymm_sign (a b : CStr) :
    compare_path a b = -(compare_path b a) :=
  g_utf8_collate_antisymm_sign _ _

theorem compare_path_trans (a b c : CStr) :
    compare_path a b ≤ 0 → compare_path b c ≤ 0 → compare_path a c ≤ 0 :=
  g_utf8_collate_trans _ _ _

theorem compare_path_casefold_congr (a b c : CStr)
    (h : g_utf8_casefold a = g_utf8_casefold b) :
    compare_path a c = compare_path b c := by
  unfold compare_path
  rw [h]

theorem compare_pages_trans (a b c : PageMeta) :
    compare_pages a b ≤ 0 → compare_pages b c ≤ 0 → compare_pages a c ≤ 0 :=
  compare_path_trans _ _ _

theorem compare_pages_antisymm_sign (a b : PageMeta) :
    compare_pages a b = -(compare_pages b a) :=
  compare_path_antisymm_sign _ _

/-! ### Properties of sorted insertion and the scan loop -/

theorem page_le_total (a b : PageMeta) : page_le a b ∨ page_le b a := by
  have h := compare_pages_antisymm_sign a b
  unfold page_le
  omega

theorem g_list_insert_sorted_perm (m : PageMeta) :
    ∀ l : List PageMeta, (g_list_insert_sorted m l).Perm (m :: l) := by
  intro l
  induction l with
  | nil => simp [g_list_insert_sorted]
  | cons x xs ih =>
    simp only [g_list_insert_sorted]
    split_ifs with h
    · exact List.Perm.refl _
    · exact (ih.cons x).trans (List.Perm.swap m x xs)

theorem g_list_insert_sorted_sorted (m : PageMeta) :
    ∀ l : List PageMeta, l.Sorted page_le → (g_list_insert_sorted m l).Sorted page_le := by
  intro l
  induction l with
  | nil => intro _; simp [g_list_insert_sorted, List.Sorted]
  | cons x xs ih =>
    intro hs
    rw [List.sorted_cons] at hs
    simp only [g_list_insert_sorted]
    split_ifs with h
    · rw [List.sorted_cons]
      constructor
      · intro b hb
        rcases List.mem_cons.mp hb with hb | hb
        · subst hb; exact h
        · exact compare_pages_trans m x b h (hs.1 b hb)
      · rw [List.sorted_cons]
        exact hs
    · rw [List.sorted_cons]
      constructor
      · intro b hb
        have hmem := (g_list_insert_sorted_perm m xs).mem_iff.mp hb
        rcases List.mem_cons.mp hmem with hb' | hb'
        · unfold page_le
          rw [hb']
          have hanti := compare_pages_antisymm_sign m x
          omega
        · exact hs.1 b hb'
      · exact ih hs.2

theorem read_archive_loop_error (supported : List CStr) :
    ∀ (hrs : List HeaderRead) (pages : List PageMeta),
      (∃ hr ∈ hrs, hr.code < ARCHIVE_WARN) →
      read_archive_loop supported hrs pages = none := by
  intro hrs
  induction hrs with
  | nil => intro pages h; simp at h
  | cons hr rest ih =>
    intro pages h
    simp only [read_archive_loop]
    split_ifs with hc
    · rfl
    · have h' : ∃ x ∈ rest, x.code < ARCHIVE_WARN := by
        rcases h with ⟨x, hx, hxc⟩
        rcases List.mem_cons.mp hx with hx' | hx'
        · subst hx'; exact absurd hxc hc
        · exact ⟨x, hx', hxc⟩
      cases hsc : scan_header supported hr with
      | some meta => exact ih _ h'
      | none => exact ih _ h'

theorem read_archive_loop_no_error (supported : List CStr) :
    ∀ (hrs : List HeaderRead) (pages : List PageMeta),
      (∀ hr ∈ hrs, ¬(hr.code < ARCHIVE_WARN)) →
      read_archive_loop supported hrs pages =
        some ((accepted_pages supported hrs).foldl (fun acc m => g_list_insert_sorted m acc) pages) := by
  intro hrs
  induction hrs with
  | nil => intro pages _; simp [read_archive_loop, accepted_pages]
  | cons hr rest ih =>
    intro pages h
    simp only [read_archive_loop]
    split_ifs with hc
    · exact absurd hc (h hr (by simp))
    · cases hsc : scan_header supported hr with
      | some meta =>
        have hrec := ih (g_list_insert_sorted meta pages) (fun x hx => h x (by simp [hx]))
        have hacc : accepted_pages supported (hr :: rest) =
            meta :: accepted_pages supported rest := by
          simp [accepted_pages, hsc]
        rw [hacc]
        simp only [List.foldl_cons]
        exact hrec
      | none =>
        have hrec := ih pages (fun x hx => h x (by simp [hx]))
        have hacc : accepted_pages supported (hr :: rest) =
            accepted_pages supported rest := by
          simp [accepted_pages, hsc]
        rw [hacc]
        exact hrec

theorem fold_insert_sorted_perm :
    ∀ (l : List PageMeta) (acc : List PageMeta),
      (l.foldl (fun acc m => g_list_insert_sorted m acc) acc).Perm (l ++ acc) := by
  intro l
  induction l with
  | nil => intro acc; simp
  | cons m rest ih =>
    intro acc
    simp only [List.foldl_cons, List.cons_append]
    have h1 := ih (g_list_insert_sorted m acc)
    have h2 : (rest ++ g_list_insert_sorted m acc).Perm (rest ++ m :: acc) :=
      List.Perm.append_left rest (g_list_insert_sorted_perm m acc)
    have h3 : (rest ++ m :: acc).Perm (m :: (rest ++ acc)) := List.perm_middle
    exact (h1.trans h2).trans h3

theorem fold_insert_sorted_sorted :
    ∀ (l : List PageMeta) (acc : List PageMeta),
      acc.Sorted page_le →
      (l.foldl (fun acc m => g_list_insert_sorted m acc) acc).Sorted page_le := by
  intro l
  induction l with
  | nil => intro acc h; simpa
  | cons m rest ih =>
    intro acc h
    simp only [List.foldl_cons]
    exact ih _ (g_list_insert_sorted_sorted m acc h)

theorem page_tie_symm : Symmetric (fun m1 m2 => ¬ page_tie m1 m2) := by
  intro a b h hc
  unfold page_tie at h hc
  have := compare_pages_antisymm_sign a b
  omega

theorem sorted_perm_no_tie_eq :
    ∀ (l1 l2 : List PageMeta), l1.Perm l2 →
      l1.Sorted page_le → l2.Sorted page_le →
      l1.Pairwise (fun m1 m2 => ¬ page_tie m1 m2) → l1 = l2 := by
  intro l1
  induction l1 with
  | nil => intro l2 hp _ _ _; exact (hp.nil_eq).symm ▸ rfl
  | cons a t1 ih =>
    intro l2 hp hs1 hs2 hpw
    cases l2 with
    | nil => exact absurd hp.symm.nil_eq (by simp)
    | cons b t2 =>
      rw [List.sorted_cons] at hs1 hs2
      rw [List.pairwise_cons] at hpw
      have hab : a = b := by
        have hbmem : b ∈ a :: t1 := hp.symm.subset (by simp)
        have hamem : a ∈ b :: t2 := hp.subset (by simp)
        rcases List.mem_cons.mp hbmem with hba | hbt1
        · exact hba.symm
        · have hle1 : page_le a b := hs1.1 b hbt1
          have hle2 : page_le b a := by
            rcases List.mem_cons.mp hamem with hab' | hat2
            · unfold page_le
              rw [hab']
              have := compare_path_refl b.file
              unfold compare_pages
              omega
            · exact hs2.1 a hat2
          have htie : page_tie a b := by
            unfold page_le at hle1 hle2
            unfold page_tie
            have := compare_pages_antisymm_sign a b
            omega
          exact absurd htie (hpw.1 b hbt1)
      subst hab
      have hp' : t1.Perm t2 := hp.cons_inv
      rw [ih t2 hp' hs1.2 hs2.2 hpw.2]

/-! ### Order invariance and entry-skipping helpers -/

theorem read_archive_perm_invariant (supported : List CStr) (a1 a2 : Archive)
    (hopen : a1.openCode = a2.openCode)
    (hperm : a1.entries.Perm a2.entries)
    (hties : (accepted_pages supported a1.entries).Pairwise (fun m1 m2 => ¬ page_tie m1 m2)) :
    (read_archive a1 supported).1 = (read_archive a2 supported).1 := by
  unfold read_archive
  rw [hopen]
  split_ifs with h
  · rfl
  · by_cases hbad : ∃ hr ∈ a1.entries, hr.code < ARCHIVE_WARN
    · have hbad2 : ∃ hr ∈ a2.entries, hr.code < ARCHIVE_WARN := by
        rcases hbad with ⟨x, hx, hxc⟩
        exact ⟨x, hperm.subset hx, hxc⟩
      rw [read_archive_loop_error supported _ _ hbad,
        read_archive_loop_error supported _ _ hbad2]
    · have hno1 : ∀ hr ∈ a1.entries, ¬(hr.code < ARCHIVE_WARN) := by
        intro x hx hlt
        exact hbad ⟨x, hx, hlt⟩
      have hno2 : ∀ hr ∈ a2.entries, ¬(hr.code < ARCHIVE_WARN) := by
        intro x hx hlt
        exact hbad ⟨x, hperm.symm.subset hx, hlt⟩
      rw [read_archive_loop_no_error supported _ _ hno1,
        read_archive_loop_no_error supported _ _ hno2]
      have haccperm : (accepted_pages supported a1.entries).Perm
          (accepted_pages supported a2.entries) := hperm.filterMap _
      have hf1 := fold_insert_sorted_perm (accepted_pages supported a1.entries) []
      have hf2 := fold_insert_sorted_perm (accepted_pages supported a2.entries) []
      rw [List.append_nil] at hf1 hf2
      have hfperm : ((accepted_pages supported a1.entries).foldl
          (fun acc m => g_list_insert_sorted m acc) []).Perm
          ((accepted_pages supported a2.entries).foldl
            (fun acc m => g_list_insert_sorted m acc) []) :=
        (hf1.trans haccperm).trans hf2.symm
      have hs1 := fold_insert_sorted_sorted (accepted_pages supported a1.entries) []
        (by simp [List.Sorted])
      have hs2 := fold_insert_sorted_sorted (accepted_pages supported a2.entries) []
        (by simp [List.Sorted])
      have hpw : ((accepted_pages supported a1.entries).foldl
          (fun acc m => g_list_insert_sorted m acc) []).Pairwise
          (fun m1 m2 => ¬ page_tie m1 m2) :=
        (hf1.pairwise_iff (fun hxy => page_tie_symm hxy)).mpr hties
      rw [sorted_perm_no_tie_eq _ _ hfperm hs1 hs2 hpw]

theorem read_archive_loop_skip (supported : List CStr) (hr : HeaderRead)
    (hcode : ¬(hr.code < ARCHIVE_WARN)) (hskip : scan_header supported hr = none) :
    ∀ (pre post : List HeaderRead) (pages : List PageMeta),
      read_archive_loop supported (pre ++ hr :: post) pages =
        read_archive_loop supported (pre ++ post) pages := by
  intro pre
  induction pre with
  | nil =>
    intro post pages
    simp only [List.nil_append, read_archive_loop]
    rw [if_neg hcode, hskip]
  | cons p pre' ih =>
    intro post pages
    simp only [List.cons_append, read_archive_loop]
    split_ifs with h
    · rfl
    · cases hsc : scan_header supported p with
      | some meta => exact ih post (g_list_insert_sorted meta pages)
      | none => exact ih post pages

theorem read_archive_skip_entry (supported : List CStr) (oc : Int)
    (pre post : List HeaderRead) (hr : HeaderRead)
    (hcode : ¬(hr.code < ARCHIVE_WARN)) (hskip : scan_header supported hr = none) :
    (read_archive ⟨oc, pre ++ hr :: post⟩ supported).1 =
      (read_archive ⟨oc, pre ++ post⟩ supported).1 := by
  unfold read_archive
  split_ifs with h
  · rfl
  · rw [read_archive_loop_skip supported hr hcode hskip pre post []]

/-! ### Fetcher helpers -/

theorem load_pixbuf_loop_no_match (f : CStr) :
    ∀ hrs : List HeaderRead,
      (∀ hr ∈ hrs, compare_path hr.entry.pathname f ≠ 0) →
      load_pixbuf_loop f hrs = none := by
  intro hrs
  induction hrs with
  | nil => intro _; rfl
  | cons hr rest ih =>
    intro h
    simp only [load_pixbuf_loop]
    split_ifs with h1 h2
    · rfl
    · exact ih (fun x hx => h x (by simp [hx]))
    · exact absurd (h hr (by simp)) h2

theorem load_pixbuf_loop_skip (f : CStr) :
    ∀ (pre rest : List HeaderRead),
      (∀ hr ∈ pre, ¬(hr.code < ARCHIVE_WARN) ∧ compare_path hr.entry.pathname f ≠ 0) →
      load_pixbuf_loop f (pre ++ rest) = load_pixbuf_loop f rest := by
  intro pre
  induction pre with
  | nil => intro rest _; rfl
  | cons p pre' ih =>
    intro rest h
    have hp := h p (by simp)
    simp only [List.cons_append, load_pixbuf_loop]
    split_ifs with h1 h2
    · exact absurd h1 hp.1
    · exact ih rest (fun x hx => h x (by simp [hx]))
    · exact absurd hp.2 h2

theorem load_pixbuf_loop_found (f : CStr) (hr : HeaderRead) (rest : List HeaderRead)
    (hcode : ¬(hr.code < ARCHIVE_WARN)) (hmatch : compare_path hr.entry.pathname f = 0) :
    load_pixbuf_loop f (hr :: rest) =
      match fetch_data_blocks hr.entry.blocks [] with
      | none => none
      | some bytes => gdk_pixbuf_new_from_stream bytes := by
  simp only [load_pixbuf_loop]
  rw [if_neg hcode, if_neg (by simp [hmatch])]

/-! ### Claim theorems -/

/-- Claim C7: the Path Comparator equals the collation of the case-folded
operands, is reflexively zero, sign-antisymmetric, total and transitive (a
total order up to case-equivalence), is case-insensitive, and orders A.jpg
before b.JPG exactly as a.jpg collates before b.jpg. -/
theorem c7_path_comparator_total_order :
    (∀ a b : CStr, compare_path a b = g_utf8_collate (g_utf8_casefold a) (g_utf8_casefold b))
  ∧ (∀ a : CStr, compare_path a a = 0)
  ∧ (∀ a b : CStr, compare_path a b = -(compare_path b a))
  ∧ (∀ a b : CStr, compare_path a b ≤ 0 ∨ compare_path b a ≤ 0)
  ∧ (∀ a b c : CStr, compare_path a b ≤ 0 → compare_path b c ≤ 0 → compare_path a c ≤ 0)
  ∧ (∀ a b c : CStr, g_utf8_casefold a = g_utf8_casefold b → compare_path a c = compare_path b c)
  ∧ ((compare_path "A.jpg".toList "b.JPG".toList < 0 ↔
        g_utf8_collate "a.jpg".toList "b.jpg".toList < 0)
     ∧ compare_path "A.jpg".toList "b.JPG".toList < 0
     ∧ compare_path "A.png".toList "a.png".toList = 0) := by
  refine ⟨compare_path_eq_collate_casefold, compare_path_refl, compare_path_antisymm_sign,
    ?_, compare_path_trans, compare_path_casefold_congr, by decide⟩
  intro a b
  have h := compare_path_antisymm_sign a b
  omega

/-- Witness for C7: transitivity applied at concrete paths. -/
theorem c7_path_comparator_total_order_witness :
    compare_path "a.png".toList "c.png".toList ≤ 0 :=
  c7_path_comparator_total_order.2.2.2.2.1 "a.png".toList "b.png".toList "c.png".toList
    (by decide) (by decide)

/-- Claim C8: a page index outside the range [0, pageCount) makes
cb_page_init fail (ZATHURA_ERROR_UNKNOWN, the code's rendering of
NotFound) producing no page data, while every in-range index of the same
unchanged document still resolves to its metadata. -/
theorem c8_out_of_range_page (d : ZathuraDocument) (cbdoc : CbDocument) (idx : Nat)
    (hdata : d.data = some cbdoc) (hidx : cbdoc.pages.length ≤ idx) :
    cb_page_init (some ⟨some d, idx⟩) = (ZATHURA_ERROR_UNKNOWN, none)
    ∧ ∀ j : Nat, j < cbdoc.pages.length →
        ∃ m : PageMeta, cbdoc.pages.get? j = some m
          ∧ cb_page_init (some ⟨some d, j⟩) =
              (ZATHURA_ERROR_OK, some ⟨⟨m.file⟩, m.width, m.height⟩) := by
  constructor
  · have hnone : cbdoc.pages.get? idx = none := List.get?_eq_none.mpr hidx
    simp only [cb_page_init, hdata, hnone]
  · intro j hj
    refine ⟨cbdoc.pages.get ⟨j, hj⟩, List.get?_eq_get hj, ?_⟩
    simp only [cb_page_init, hdata, List.get?_eq_get hj]

/-- Witness for C8: index 5 of a one-page document fails while index 0
still resolves. -/
theorem c8_out_of_range_page_witness :
    cb_page_init (some ⟨some ⟨⟨ARCHIVE_OK, []⟩, some ⟨[⟨"a.png".toList, 30, 30⟩]⟩, 1⟩, 5⟩) =
      (ZATHURA_ERROR_UNKNOWN, none) :=
  (c8_out_of_range_page ⟨⟨ARCHIVE_OK, []⟩, some ⟨[⟨"a.png".toList, 30, 30⟩]⟩, 1⟩
    ⟨[⟨"a.png".toList, 30, 30⟩]⟩ 5 rfl (by decide)).1

/-- Claim C9 (code bug): the scanner releases its archive handle on every
exit path and the fetcher does whenever the stream open succeeds, but on
the fetcher's open-failure path the handle allocated by archive_read_new
is never freed. -/
theorem c9_handle_release :
    (∀ (arch : Archive) (supported : List CStr), balanced (read_archive arch supported).2)
  ∧ (∀ (arch : Archive) (f : CStr), arch.openCode = ARCHIVE_OK →
        balanced (load_pixbuf_from_archive (some arch) (some f)).2)
  ∧ (load_pixbuf_from_archive (some ⟨ARCHIVE_FATAL, []⟩) (some "a.png".toList)).2 = [REv.alloc]
  ∧ ¬ balanced [REv.alloc] := by
  refine ⟨?_, ?_, by decide, by decide⟩
  · intro arch supported
    unfold read_archive
    split_ifs with h
    · decide
    · cases read_archive_loop supported arch.entries [] with
      | none => decide
      | some pages =>
        show balanced [REv.alloc, REv.close, REv.free]
        decide
  · intro arch f hopen
    simp only [load_pixbuf_from_archive]
    rw [if_neg (by simp [hopen])]
    show balanced [REv.alloc, REv.close, REv.free]
    decide

/-- Witness for C9: the fetcher's balanced paths at a concrete archive. -/
theorem c9_handle_release_witness :
    balanced (load_pixbuf_from_archive (some ⟨ARCHIVE_OK, []⟩) (some "a.png".toList)).2 :=
  c9_handle_release.2.1 ⟨ARCHIVE_OK, []⟩ "a.png".toList rfl

/-- Claim C10: each public operation returns
ZATHURA_ERROR_INVALID_ARGUMENTS and changes nothing when a required
argument is NULL. -/
theorem c10_null_arguments :
    (∀ supported : List CStr,
        cb_document_open none supported = (ZATHURA_ERROR_INVALID_ARGUMENTS, none))
  ∧ cb_page_init none = (ZATHURA_ERROR_INVALID_ARGUMENTS, none)
  ∧ (∀ (page : Option ZathuraPage) (cp : Option CbPage) (c : Option Cairo) (printing : Bool),
        page = none ∨ cp = none ∨ c = none →
        cb_page_render_cairo page cp c printing = (ZATHURA_ERROR_INVALID_ARGUMENTS, c)) := by
  refine ⟨fun _ => rfl, rfl, ?_⟩
  intro page cp c printing h
  rcases h with h | h | h
  · subst h; cases cp <;> cases c <;> rfl
  · subst h; cases page <;> cases c <;> rfl
  · subst h; cases page <;> cases cp <;> rfl

/-- Witness for C10: the render call with all arguments NULL. -/
theorem c10_null_arguments_witness :
    cb_page_render_cairo none none none false = (ZATHURA_ERROR_INVALID_ARGUMENTS, none) :=
  c10_null_arguments.2.2 none none none false (Or.inl rfl)

/-- Claim C2 counterexample: a data-block read during the scan returns
ARCHIVE_FATAL (more severe than a warning), yet open succeeds and even
indexes the entry — the scan's data-block loop never inspects the read
code. -/
theorem c2_counterexample :
    ARCHIVE_FATAL < ARCHIVE_WARN
    ∧ cb_document_open (some ⟨⟨ARCHIVE_OK, [entry_block_error_png]⟩, none, 0⟩) registry_png =
        (ZATHURA_ERROR_OK, some ⟨⟨ARCHIVE_OK, [entry_block_error_png]⟩,
          some ⟨[⟨"e.png".toList, 7, 9⟩]⟩, 1⟩) := by
  decide

/-- Claim C2 (amended): a header read more severe than a warning aborts the
whole open with an error and no page index, but data-block read codes are
never inspected by the scan — its result depends only on the block data. -/
theorem c2_amended_header_errors_abort :
    (∀ (d : ZathuraDocument) (supported : List CStr),
        d.arch.openCode = ARCHIVE_OK →
        (∃ hr ∈ d.arch.entries, hr.code < ARCHIVE_WARN) →
        cb_document_open (some d) supported = (ZATHURA_ERROR_UNKNOWN, some d))
  ∧ (∀ (bs bs' : List Block) (fed : List Nat) (m : Nat × Nat),
        bs.map Block.data = bs'.map Block.data →
        scan_data_blocks bs fed m = scan_data_blocks bs' fed m) := by
  constructor
  · intro d supported hopen hbad
    simp only [cb_document_open]
    have hra : (read_archive d.arch supported).1 = none := by
      unfold read_archive
      rw [if_neg (by simp [hopen])]
      rw [read_archive_loop_error supported _ _ hbad]
    rw [hra]
  · intro bs
    induction bs with
    | nil =>
      intro bs' fed m h
      have hnil : bs' = [] := List.map_eq_nil_iff.mp h.symm
      subst hnil
      rfl
    | cons b rest ih =>
      intro bs' fed m h
      cases bs' with
      | nil => simp at h
      | cons b' rest' =>
        simp only [List.map_cons, List.cons.injEq] at h
        obtain ⟨hd, ht⟩ := h
        simp only [scan_data_blocks]
        rw [hd]
        split_ifs <;> first | rfl | exact ih rest' _ _ ht

/-- Witness for C2 (amended): a fatal header read on a concrete archive
aborts the open with no page index. -/
theorem c2_amended_header_errors_abort_witness :
    cb_document_open
        (some ⟨⟨ARCHIVE_OK, [⟨ARCHIVE_FATAL, ⟨FileType.AE_IFREG, "x.png".toList, []⟩⟩]⟩, none, 0⟩)
        registry_png =
      (ZATHURA_ERROR_UNKNOWN,
        some ⟨⟨ARCHIVE_OK, [⟨ARCHIVE_FATAL, ⟨FileType.AE_IFREG, "x.png".toList, []⟩⟩]⟩, none, 0⟩) :=
  c2_amended_header_errors_abort.1
    ⟨⟨ARCHIVE_OK, [⟨ARCHIVE_FATAL, ⟨FileType.AE_IFREG, "x.png".toList, []⟩⟩]⟩, none, 0⟩
    registry_png rfl
    ⟨⟨ARCHIVE_FATAL, ⟨FileType.AE_IFREG, "x.png".toList, []⟩⟩, by simp, by decide⟩

/-- Claim C5: an extension-matching regular entry whose partial decode
never yields positive dimensions is silently dropped and the scan
continues — removing it from the archive leaves the open result
unchanged — and an archive holding only one such entry opens successfully
with zero pages. -/
theorem c5_undecodable_entry_excluded :
    (∀ (supported : List CStr) (oc : Int) (pre post : List HeaderRead) (hr : HeaderRead),
        ¬(hr.code < ARCHIVE_WARN) →
        hr.entry.filetype = FileType.AE_IFREG →
        ext_matches (get_extension hr.entry.pathname) supported = true →
        scan_entry_dims hr.entry.blocks = none →
        (read_archive ⟨oc, pre ++ hr :: post⟩ supported).1 =
          (read_archive ⟨oc, pre ++ post⟩ supported).1)
  ∧ cb_document_open (some ⟨⟨ARCHIVE_OK, [corrupt_png_entry]⟩, none, 0⟩) registry_png =
      (ZATHURA_ERROR_OK, some ⟨⟨ARCHIVE_OK, [corrupt_png_entry]⟩, some ⟨[]⟩, 0⟩) := by
  constructor
  · intro supported oc pre post hr hcode hft hext hdims
    apply read_archive_skip_entry supported oc pre post hr hcode
    simp [scan_header, hft, hext, hdims]
  · decide

/-- Witness for C5: deleting the undecodable entry from a concrete archive
does not change the scan result. -/
theorem c5_undecodable_entry_excluded_witness :
    (read_archive ⟨ARCHIVE_OK, [corrupt_png_entry]⟩ registry_png).1 =
      (read_archive ⟨ARCHIVE_OK, []⟩ registry_png).1 :=
  c5_undecodable_entry_excluded.1 registry_png ARCHIVE_OK [] [] corrupt_png_entry
    (by decide) (by decide) (by decide) (by decide)

theorem get_extension_eq_none_iff :
    ∀ path : CStr, get_extension path = none ↔ '.' ∉ path := by
  intro path
  induction path with
  | nil => simp [get_extension]
  | cons c rest ih =>
    simp only [get_extension]
    cases hrec : get_extension rest with
    | some e =>
      have hmem : '.' ∈ rest := by
        by_contra hnot
        rw [ih.mpr hnot] at hrec
        exact Option.noConfusion hrec
      simp [hmem]
    | none =>
      have hnot : '.' ∉ rest := ih.mp hrec
      split_ifs with hc
      · simp [hc]
      · simp only [List.mem_cons]
        constructor
        · intro _ hin
          rcases hin with hin | hin
          · exact hc hin.symm
          · exact hnot hin
        · intro _
          trivial

theorem get_extension_after_last_dot :
    ∀ (pre e : CStr), '.' ∉ e → get_extension (pre ++ '.' :: e) = some e := by
  intro pre e he
  induction pre with
  | nil =>
    simp only [List.nil_append, get_extension]
    rw [(get_extension_eq_none_iff e).mpr he]
    simp
  | cons c pre' ih =>
    show get_extension (c :: (pre' ++ '.' :: e)) = some e
    simp only [get_extension]
    rw [ih]

/-- Claim C6: the scanner's extension is the substring after the last dot
of the entry path (no dot means no extension, which matches nothing), the
match against the registry is exact case-sensitive string equality, a
non-matching entry is skipped without affecting the rest of the scan, and
the comparison performs no case normalization (x.PNG does not match a
png registry while x.png does). -/
theorem c6_extension_exact_match :
    (∀ path : CStr, get_extension path = none ↔ '.' ∉ path)
  ∧ (∀ (pre e : CStr), '.' ∉ e → get_extension (pre ++ '.' :: e) = some e)
  ∧ (∀ supported : List CStr, ext_matches none supported = false)
  ∧ (∀ (ext? : Option CStr) (supported : List CStr),
        ext_matches ext? supported = true ↔ ∃ e ∈ supported, ext? = some e)
  ∧ (∀ (supported : List CStr) (oc : Int) (pre post : List HeaderRead) (hr : HeaderRead),
        ¬(hr.code < ARCHIVE_WARN) →
        ext_matches (get_extension hr.entry.pathname) supported = false →
        (read_archive ⟨oc, pre ++ hr :: post⟩ supported).1 =
          (read_archive ⟨oc, pre ++ post⟩ supported).1)
  ∧ (ext_matches (get_extension "x.PNG".toList) registry_png = false
     ∧ ext_matches (get_extension "x.png".toList) registry_png = true
     ∧ get_extension "noext".toList = none
     ∧ ext_matches (get_extension "noext".toList) registry_png = false) := by
  refine ⟨get_extension_eq_none_iff, get_extension_after_last_dot, ?_, ?_, ?_, by decide⟩
  · intro supported
    simp [ext_matches]
  · intro ext? supported
    simp [ext_matches]
  · intro supported oc pre post hr hcode hext
    apply read_archive_skip_entry supported oc pre post hr hcode
    simp [scan_header, hext]

/-- Witness for C6: the extension of photo.png is png. -/
theorem c6_extension_exact_match_witness :
    get_extension ("photo".toList ++ '.' :: "png".toList) = some "png".toList :=
  c6_extension_exact_match.2.1 "photo".toList "png".toList (by decide)

/-- Claim C3 counterexample: three distinct failure causes — no matching
entry, content the full decoder rejects, and archive open failure — all
produce the same observable outcome, a NULL pixbuf and
ZATHURA_ERROR_UNKNOWN from the render call: the operation does not
distinguish its failure causes.  The final conjunct pins the middle cause
as a decode failure: the content was fully buffered. -/
theorem c3_counterexample :
    (load_pixbuf_from_archive (some ⟨ARCHIVE_OK, []⟩) (some "p.png".toList)).1 = none
  ∧ (load_pixbuf_from_archive (some ⟨ARCHIVE_OK, [entry_decode_fail]⟩) (some "p.png".toList)).1 = none
  ∧ (load_pixbuf_from_archive (some ⟨ARCHIVE_FATAL, []⟩) (some "p.png".toList)).1 = none
  ∧ cb_page_render_cairo (some ⟨some ⟨⟨ARCHIVE_OK, []⟩, none, 0⟩, 0⟩)
      (some ⟨"p.png".toList⟩) (some ⟨none⟩) false = (ZATHURA_ERROR_UNKNOWN, some ⟨none⟩)
  ∧ cb_page_render_cairo (some ⟨some ⟨⟨ARCHIVE_OK, [entry_decode_fail]⟩, none, 0⟩, 0⟩)
      (some ⟨"p.png".toList⟩) (some ⟨none⟩) false = (ZATHURA_ERROR_UNKNOWN, some ⟨none⟩)
  ∧ cb_page_render_cairo (some ⟨some ⟨⟨ARCHIVE_FATAL, []⟩, none, 0⟩, 0⟩)
      (some ⟨"p.png".toList⟩) (some ⟨none⟩) false = (ZATHURA_ERROR_UNKNOWN, some ⟨none⟩)
  ∧ fetch_data_blocks entry_decode_fail.entry.blocks [] = some [0, 5] := by
  decide

/-- Claim C3 (amended): every failure cause — no matching entry, open
failure, a hard data-block error, or content the decoder rejects — yields
the same NULL result (ZATHURA_ERROR_UNKNOWN at the render interface), and
for the first entry whose path compares equal to the requested one the
result is exactly the full decode of its buffered content. -/
theorem c3_amended_fetch_behaviour :
    (∀ (a : Archive) (f : CStr),
        (∀ hr ∈ a.entries, compare_path hr.entry.pathname f ≠ 0) →
        (load_pixbuf_from_archive (some a) (some f)).1 = none)
  ∧ (∀ (a : Archive) (f : CStr), a.openCode ≠ ARCHIVE_OK →
        (load_pixbuf_from_archive (some a) (some f)).1 = none)
  ∧ (∀ (pre rest : List HeaderRead) (hr : HeaderRead) (f : CStr),
        (∀ p ∈ pre, ¬(p.code < ARCHIVE_WARN) ∧ compare_path p.entry.pathname f ≠ 0) →
        ¬(hr.code < ARCHIVE_WARN) →
        compare_path hr.entry.pathname f = 0 →
        (load_pixbuf_from_archive (some ⟨ARCHIVE_OK, pre ++ hr :: rest⟩) (some f)).1 =
          (fetch_data_blocks hr.entry.blocks []).bind gdk_pixbuf_new_from_stream)
  ∧ (∀ (page : ZathuraPage) (cp : CbPage) (c : Cairo) (printing : Bool) (doc : ZathuraDocument),
        page.document = some doc →
        (load_pixbuf_from_archive (some doc.arch) (some cp.file)).1 = none →
        cb_page_render_cairo (some page) (some cp) (some c) printing =
          (ZATHURA_ERROR_UNKNOWN, some c)) := by
  refine ⟨?_, ?_, ?_, ?_⟩
  · intro a f h
    simp only [load_pixbuf_from_archive]
    split_ifs with hoc
    · rfl
    · exact load_pixbuf_loop_no_match f a.entries h
  · intro a f hoc
    simp only [load_pixbuf_from_archive]
    rw [if_pos hoc]
  · intro pre rest hr f hpre hcode hmatch
    simp only [load_pixbuf_from_archive]
    rw [if_neg (by simp)]
    show load_pixbuf_loop f (pre ++ hr :: rest) = _
    rw [load_pixbuf_loop_skip f pre (hr :: rest) hpre,
      load_pixbuf_loop_found f hr rest hcode hmatch]
    cases fetch_data_blocks hr.entry.blocks [] <;> rfl
  · intro page cp c printing doc hdoc hfetch
    simp only [cb_page_render_cairo, hdoc, hfetch]

/-- Witness for C3 (amended): the fetch of a.png from a concrete archive is
exactly the decode of its buffered bytes. -/
theorem c3_amended_fetch_behaviour_witness :
    (load_pixbuf_from_archive (some ⟨ARCHIVE_OK, [entry_a_png]⟩) (some "a.png".toList)).1 =
      (fetch_data_blocks entry_a_png.entry.blocks []).bind gdk_pixbuf_new_from_stream :=
  c3_amended_fetch_behaviour.2.2.1 [] [] entry_a_png "a.png".toList
    (by simp) (by decide) (by decide)

/-- Claim C1: the three-entry scenario — b.png (a valid 50 by 50 image),
a.txt (not an image), a.png (a valid 30 by 30 image), registry png and
jpg — opens with two pages, page 0 resolving to a.png at (30, 30) and
page 1 to b.png at (50, 50), whatever order the entries appear in the
archive. -/
theorem c1_scenario_sorted_pages (es : List HeaderRead)
    (h : es.Perm [entry_b_png, entry_a_txt, entry_a_png]) :
    ∃ d : ZathuraDocument,
      cb_document_open (some ⟨⟨ARCHIVE_OK, es⟩, none, 0⟩) registry_png_jpg =
        (ZATHURA_ERROR_OK, some d)
      ∧ d.number_of_pages = 2
      ∧ cb_page_init (some ⟨some d, 0⟩) =
          (ZATHURA_ERROR_OK, some ⟨⟨"a.png".toList⟩, 30, 30⟩)
      ∧ cb_page_init (some ⟨some d, 1⟩) =
          (ZATHURA_ERROR_OK, some ⟨⟨"b.png".toList⟩, 50, 50⟩) := by
  have hties : (accepted_pages registry_png_jpg es).Pairwise
      (fun m1 m2 => ¬ page_tie m1 m2) := by
    have haccperm : (accepted_pages registry_png_jpg es).Perm
        (accepted_pages registry_png_jpg [entry_b_png, entry_a_txt, entry_a_png]) :=
      h.filterMap _
    exact (haccperm.pairwise_iff (fun hxy => page_tie_symm hxy)).mpr (by decide)
  have hread : (read_archive ⟨ARCHIVE_OK, es⟩ registry_png_jpg).1 =
      some [⟨"a.png".toList, 30, 30⟩, ⟨"b.png".toList, 50, 50⟩] := by
    have hinv := read_archive_perm_invariant registry_png_jpg ⟨ARCHIVE_OK, es⟩
      ⟨ARCHIVE_OK, [entry_b_png, entry_a_txt, entry_a_png]⟩ rfl h hties
    rw [hinv]
    decide
  refine ⟨⟨⟨ARCHIVE_OK, es⟩, some ⟨[⟨"a.png".toList, 30, 30⟩, ⟨"b.png".toList, 50, 50⟩]⟩, 2⟩,
    ?_, rfl, rfl, rfl⟩
  simp only [cb_document_open, hread]
  rfl

/-- Witness for C1: the scenario at one concrete entry order. -/
theorem c1_scenario_sorted_pages_witness :
    ∃ d : ZathuraDocument,
      cb_document_open (some ⟨⟨ARCHIVE_OK, [entry_a_png, entry_b_png, entry_a_txt]⟩, none, 0⟩)
        registry_png_jpg = (ZATHURA_ERROR_OK, some d)
      ∧ d.number_of_pages = 2
      ∧ cb_page_init (some ⟨some d, 0⟩) =
          (ZATHURA_ERROR_OK, some ⟨⟨"a.png".toList⟩, 30, 30⟩)
      ∧ cb_page_init (some ⟨some d, 1⟩) =
          (ZATHURA_ERROR_OK, some ⟨⟨"b.png".toList⟩, 50, 50⟩) :=
  c1_scenario_sorted_pages [entry_a_png, entry_b_png, entry_a_txt] (by decide)

/-- Claim C4 counterexample: two archives holding the same two entries —
a.png (20 by 20) and A.png (10 by 10), distinct paths that tie under the
case-insensitive comparator — in opposite physical orders both open
successfully but produce different page indexes: index 0 carries a
different entry path and different dimensions. -/
theorem c4_counterexample :
    ([entry_upperA_png, entry_lowerA_png] : List HeaderRead).Perm
      [entry_lowerA_png, entry_upperA_png]
  ∧ (read_archive ⟨ARCHIVE_OK, [entry_upperA_png, entry_lowerA_png]⟩ registry_png).1 =
      some [⟨"a.png".toList, 20, 20⟩, ⟨"A.png".toList, 10, 10⟩]
  ∧ (read_archive ⟨ARCHIVE_OK, [entry_lowerA_png, entry_upperA_png]⟩ registry_png).1 =
      some [⟨"A.png".toList, 10, 10⟩, ⟨"a.png".toList, 20, 20⟩]
  ∧ (read_archive ⟨ARCHIVE_OK, [entry_upperA_png, entry_lowerA_png]⟩ registry_png).1 ≠
      (read_archive ⟨ARCHIVE_OK, [entry_lowerA_png, entry_upperA_png]⟩ registry_png).1 := by
  decide

/-- Claim C4 (amended): when no two accepted entries tie under the
comparator (the spec's own uniqueness assumption for the Page Index),
opening archives whose entries are permutations of one another yields the
same error code, the same page index and the same page count. -/
theorem c4_amended_order_invariance (supported : List CStr) (a1 a2 : Archive)
    (hopen : a1.openCode = a2.openCode)
    (hperm : a1.entries.Perm a2.entries)
    (hties : (accepted_pages supported a1.entries).Pairwise (fun m1 m2 => ¬ page_tie m1 m2)) :
    (cb_document_open (some ⟨a1, none, 0⟩) supported).1 =
      (cb_document_open (some ⟨a2, none, 0⟩) supported).1
    ∧ ((cb_document_open (some ⟨a1, none, 0⟩) supported).2.bind ZathuraDocument.data) =
        ((cb_document_open (some ⟨a2, none, 0⟩) supported).2.bind ZathuraDocument.data)
    ∧ ((cb_document_open (some ⟨a1, none, 0⟩) supported).2.map ZathuraDocument.number_of_pages) =
        ((cb_document_open (some ⟨a2, none, 0⟩) supported).2.map ZathuraDocument.number_of_pages) := by
  have hr := read_archive_perm_invariant supported a1 a2 hopen hperm hties
  simp only [cb_document_open]
  rw [hr]
  cases hv : (read_archive a2 supported).1 with
  | none => simp
  | some pages => simp

/-- Witness for C4 (amended): two orders of the C1 entries give identical
open results. -/
theorem c4_amended_order_invariance_witness :
    (cb_document_open
        (some ⟨⟨ARCHIVE_OK, [entry_b_png, entry_a_txt, entry_a_png]⟩, none, 0⟩)
        registry_png_jpg).1 =
      (cb_document_open
        (some ⟨⟨ARCHIVE_OK, [entry_a_png, entry_b_png, entry_a_txt]⟩, none, 0⟩)
        registry_png_jpg).1
    ∧ ((cb_document_open
        (some ⟨⟨ARCHIVE_OK, [entry_b_png, entry_a_txt, entry_a_png]⟩, none, 0⟩)
        registry_png_jpg).2.bind ZathuraDocument.data) =
      ((cb_document_open
        (some ⟨⟨ARCHIVE_OK, [entry_a_png, entry_b_png, entry_a_txt]⟩, none, 0⟩)
        registry_png_jpg).2.bind ZathuraDocument.data)
    ∧ ((cb_document_open
        (some ⟨⟨ARCHIVE_OK, [entry_b_png, entry_a_txt, entry_a_png]⟩, none, 0⟩)
        registry_png_jpg).2.map ZathuraDocument.number_of_pages) =
      ((cb_document_open
        (some ⟨⟨ARCHIVE_OK, [entry_a_png, entry_b_png, entry_a_txt]⟩, none, 0⟩)
        registry_png_jpg).2.map ZathuraDocument.number_of_pages) :=
  c4_amended_order_invariance registry_png_jpg
    ⟨ARCHIVE_OK, [entry_b_png, entry_a_txt, entry_a_png]⟩
    ⟨ARCHIVE_OK, [entry_a_png, entry_b_png, entry_a_txt]⟩ rfl (by decide) (by decide)
